import Mathlib

/-!
Shallow embedding of `run_data_ingestion.py` (BV-BRC data ingestion scheduler).

JSON artifacts are modelled by the inductive `JVal`; timestamps by `Int`
(day granularity, matching the `%Y-%m-%d` formatting the script uses);
fallible steps by `Except`; the external effects of one job (subprocess
run, file existence, backup HTTP call, commit tool) by an explicit
environment record `Env` that the orchestrator consults.
-/

namespace Ingestion

/-- JSON values, as parsed from the insert/update artifact files. -/
inductive JVal where
  | null : JVal
  | bool : Bool → JVal
  | num : Int → JVal
  | str : String → JVal
  | arr : List JVal → JVal
  | obj : List (String × JVal) → JVal

/-- The four recognized Solr atomic-update operators
(`["set", "add", "remove", "inc"]` in the source). -/
def updateOps : List String := ["set", "add", "remove", "inc"]

/-- `isinstance(value, dict) and any(op in value for op in [...])`:
the value is a JSON object containing at least one update operator key. -/
def isOpObj : JVal → Bool
  | .obj fields => fields.any (fun p => updateOps.contains p.1)
  | _ => false

/-- `key in doc` for a JSON object given as a field list. -/
def hasField (fields : List (String × JVal)) (key : String) : Bool :=
  fields.any (fun p => p.1 == key)

/-- `doc[key]` lookup (first binding wins, as in a Python dict there is
at most one). -/
def getField : JVal → String → Option JVal
  | .obj fields, key => (fields.find? (fun p => p.1 == key)).map (fun p => p.2)
  | _, _ => none

/-- Errors raised by the validation helpers (`ValueError` variants in the
source, distinguished here by the condition that raised them). -/
inductive ValidationError where
  | invalidFormat : ValidationError
  | notAnObject : ValidationError
  | missingKey : ValidationError
  | unexpectedField : ValidationError
  | invalidUpdateShape : ValidationError
  | invalidInsertShape : ValidationError
deriving DecidableEq, Repr

/-- `validate_json`: the artifact must be a JSON array; returns the list
of documents. (A syntactically unparseable file raises the same
`ValueError`; here the artifact is already a parsed `JVal`.) -/
def validate_json : JVal → Except ValidationError (List JVal)
  | .arr docs => .ok docs
  | _ => .error .invalidFormat

/-- Body of the per-document loop of `validate_solr_insert_file`:
object check, unique-key check, then reject the first field whose value
is operator-shaped. -/
def checkInsertDoc (unique_key : String) : JVal → Except ValidationError Unit
  | .obj fields =>
    if !hasField fields unique_key then .error .missingKey
    else if fields.any (fun p => isOpObj p.2) then .error .invalidInsertShape
    else .ok ()
  | _ => .error .notAnObject

/-- Run a per-document check over the list, stopping at the first error
(the Python loop raises at the first offending document). -/
def checkDocs (check : JVal → Except ValidationError Unit) :
    List JVal → Except ValidationError Unit
  | [] => .ok ()
  | d :: ds =>
    match check d with
    | .error e => .error e
    | .ok _ => checkDocs check ds

/-- `validate_solr_insert_file`. -/
def validate_solr_insert_file (content : JVal) (unique_key : String) :
    Except ValidationError Unit :=
  match validate_json content with
  | .error e => .error e
  | .ok docs => checkDocs (checkInsertDoc unique_key) docs

/-- Field loop of `validate_solr_update_file`: skip the unique key,
require membership in `allowed_fields`, require an operator-shaped value. -/
def checkUpdateFields (allowed_fields : List String) (unique_key : String) :
    List (String × JVal) → Except ValidationError Unit
  | [] => .ok ()
  | (f, v) :: rest =>
    if f == unique_key then checkUpdateFields allowed_fields unique_key rest
    else if !allowed_fields.contains f then .error .unexpectedField
    else if !isOpObj v then .error .invalidUpdateShape
    else checkUpdateFields allowed_fields unique_key rest

/-- Body of the per-document loop of `validate_solr_update_file`. -/
def checkUpdateDoc (allowed_fields : List String) (unique_key : String) :
    JVal → Except ValidationError Unit
  | .obj fields =>
    if !hasField fields unique_key then .error .missingKey
    else checkUpdateFields allowed_fields unique_key fields
  | _ => .error .notAnObject

/-- `validate_solr_update_file`: validates and returns the parsed document
list (needed downstream to extract the id set for backup). -/
def validate_solr_update_file (content : JVal) (allowed_fields : List String)
    (unique_key : String) : Except ValidationError (List JVal) :=
  match validate_json content with
  | .error e => .error e
  | .ok docs =>
    match checkDocs (checkUpdateDoc allowed_fields unique_key) docs with
    | .error e => .error e
    | .ok _ => .ok docs

/-- One entry of a job's `solr_insert` / `solr_update` list: target core
name, unique key, and (for updates) the allowed-field whitelist. Optional
fields model keys the JSON config may omit. -/
structure SolrConf where
  core_name : Option String
  key : Option String
  fields : Option (List String)
deriving DecidableEq, Repr

/-- One job descriptor of the schedule (`script_meta` in the source).
Timestamps are days; `disabled`, `force_run` and `script_file` are
optional because the source reads them with `.get` and a default. -/
structure ScriptMeta where
  disabled : Option Bool
  script_file : Option String
  last_run : Int
  interval_days : Int
  force_run : Option Bool
  solr_insert : List SolrConf
  solr_update : List SolrConf
deriving DecidableEq, Repr

/-- Global settings block; `commit_solr` may be absent
(`settings.get("commit_solr", False)`). -/
structure Settings where
  commit_solr : Option Bool
deriving DecidableEq, Repr

/-- The schedule file: settings plus named job descriptors. -/
structure Schedule where
  settings : Settings
  scripts : List (String × ScriptMeta)
deriving DecidableEq, Repr

/-- `get_next_run_date`: last run plus `interval_days`. -/
def get_next_run_date (m : ScriptMeta) : Int :=
  m.last_run + m.interval_days

/-- The second component of `should_run`'s result: either the literal
"Forced execution" string or the isoformat of the next run date
(modelled by the date itself). -/
inductive RunReason where
  | forced : RunReason
  | nextRunDate : Int → RunReason
deriving DecidableEq, Repr

/-- `should_run`: forced execution wins; otherwise run iff
`now >= last_run + interval_days`. The source reads the clock itself via
`datetime.datetime.now()`; here the current time is an explicit argument. -/
def should_run (m : ScriptMeta) (now : Int) : Bool × RunReason :=
  if m.force_run.getD false then (true, .forced)
  else (decide (get_next_run_date m ≤ now), .nextRunDate (get_next_run_date m))

/-- `update_run_date`: set the job's `last_run` to the run timestamp and
save the schedule. NOTE: the source's docstring promises to reset
`force_run` as well, but the line doing so is commented out, so the flag
is left untouched. -/
def update_run_date (script_name : String) (schedule : Schedule)
    (timestamp : Int) : Schedule :=
  { schedule with
    scripts := schedule.scripts.map (fun p =>
      if p.1 == script_name then (p.1, { p.2 with last_run := timestamp })
      else p) }

/-- The file paths one job can produce (under the dated output/backup
directories): `{name}_insert.json`, `{name}_update.json`,
`{name}_backup.json`. -/
inductive FPath where
  | insertFile : String → FPath
  | updateFile : String → FPath
  | backupFile : String → FPath
deriving DecidableEq, Repr

/-- External facts `execute_script` depends on: whether the executable is
on disk, whether the subprocess exits 0, and which of the requested
output files the subprocess actually creates. -/
structure ExecEnv where
  scriptPresent : Bool
  exitOk : Bool
  createdInsert : Bool
  createdUpdate : Bool
deriving DecidableEq, Repr

/-- Errors a job's pipeline can raise (each caught at the job boundary). -/
inductive JobError where
  | scriptNotFound : JobError
  | executionFailed : JobError
  | indexError : JobError
  | insertConfMissingKey : JobError
  | updateConfMissingKey : JobError
  | missingCoreName : JobError
  | validation : ValidationError → JobError
  | backupHttpError : JobError
  | commitFailed : String → JobError
deriving DecidableEq, Repr

/-- What `execute_script` leaves behind: its result (paths, or the raised
error) and the on-disk state of the output directory afterwards. -/
structure ExecResult where
  result : Except JobError (Option FPath × Option FPath)
  outputDirCreated : Bool
  insertFileOnDisk : Bool
  updateFileOnDisk : Bool
  logFileOnDisk : Bool
deriving Repr

/-- `execute_script`: missing executable raises before the output
directory is created; a non-zero exit deletes any partially created
insert/update file, keeps the log file, and raises; success returns the
insert/update paths (each present iff requested). -/
def execute_script (script_name : String) (e : ExecEnv)
    (has_insert has_update : Bool) : ExecResult :=
  if !e.scriptPresent then
    { result := .error .scriptNotFound
      outputDirCreated := false
      insertFileOnDisk := false
      updateFileOnDisk := false
      logFileOnDisk := false }
  else if e.exitOk then
    { result := .ok
        ((if has_insert then some (.insertFile script_name) else none),
         (if has_update then some (.updateFile script_name) else none))
      outputDirCreated := true
      insertFileOnDisk := has_insert && e.createdInsert
      updateFileOnDisk := has_update && e.createdUpdate
      logFileOnDisk := true }
  else
    { result := .error .executionFailed
      outputDirCreated := true
      insertFileOnDisk := false
      updateFileOnDisk := false
      logFileOnDisk := true }

/-- All external effects one job's pipeline consults: the current time,
the subprocess facts, the contents of the produced artifacts, and the
outcomes of the backup HTTP call and of the two commit-tool runs. -/
structure Env where
  now : Int
  exec : ExecEnv
  insertContent : JVal
  updateContent : JVal
  backupOk : Bool
  commitInsertOk : Bool
  commitUpdateOk : Bool

/-- Which effectful steps the pipeline actually performed for one job.
`commits` lists the commit-tool invocations in order as
(core name, mode) pairs. -/
structure Trace where
  execInvoked : Bool
  insertValidated : Bool
  updateValidated : Bool
  backupInvoked : Bool
  backupSucceeded : Bool
  backupIds : List JVal
  commits : List (String × String)
  lastRunUpdated : Bool
  err : Option JobError

/-- The trace before any step has run. -/
def Trace.empty : Trace :=
  { execInvoked := false, insertValidated := false, updateValidated := false
    backupInvoked := false, backupSucceeded := false, backupIds := []
    commits := [], lastRunUpdated := false, err := none }

/-- Outcome status recorded in the run history. -/
inductive Status where
  | success : Status
  | failure : Status
  | skipped : Status
deriving DecidableEq, Repr

/-- The reason string recorded in the run history. -/
inductive Reason where
  | notScheduled : Reason
  | disabled : Reason
  | noScriptFile : Reason
  | runReason : RunReason → Reason
  | error : JobError → Reason
deriving DecidableEq, Repr

/-- One Run Record, as appended by the `finally` block of the loop body. -/
structure HistoryEntry where
  script : String
  status : Status
  reason : Reason
  insert_file : Option FPath
  update_file : Option FPath
  backup_file : Option FPath
deriving DecidableEq, Repr

/-- The net effect of processing one job: its Run Record, the schedule as
persisted afterwards, and the trace of effectful steps. -/
structure JobResult where
  entry : HistoryEntry
  sched : Schedule
  trace : Trace

/-- Build the Run Record of a job skipped before execution. -/
def skipResult (script_name : String) (r : Reason) (sched : Schedule) :
    JobResult :=
  { entry := { script := script_name, status := .skipped, reason := r
               insert_file := none, update_file := none, backup_file := none }
    sched := sched
    trace := Trace.empty }

/-- Build the Run Record of a job whose pipeline raised `e`: the handler
sets status "failure" and reason `str(e)`; the schedule is not rewritten. -/
def failResult (script_name : String) (e : JobError)
    (insF updF backF : Option FPath) (tr : Trace) (sched : Schedule) :
    JobResult :=
  { entry := { script := script_name, status := .failure, reason := .error e
               insert_file := insF, update_file := updF, backup_file := backF }
    sched := sched
    trace := { tr with err := some e } }

/-- State of a job that reached the commit gate: produced file paths, the
on-disk existence of the artifacts, the scheduling reason, and the trace
so far. -/
structure ReadyState where
  reason : Reason
  insF : Option FPath
  updF : Option FPath
  backF : Option FPath
  insertOnDisk : Bool
  updateOnDisk : Bool
  tr : Trace

/-- Result of the pipeline up to (not including) the commit gate: either
a finished job result (skip or failure) or a state ready for the gate. -/
inductive PreOut where
  | done : JobResult → PreOut
  | ready : ReadyState → PreOut

/-- Trace state after the backup fetch was attempted during the
update-file branch. -/
def backupTrace (tr : Trace) (ids : List JVal) (ok : Bool) : Trace :=
  { tr with
    updateValidated := true
    backupInvoked := true
    backupIds := ids
    backupSucceeded := ok }

/-- Update-file branch of the loop body: validate the update artifact
against the first `solr_update` descriptor, then back up the affected
documents; any error finishes the job as a failure. The backup file path
is recorded before the fetch, so it appears in the Run Record even when
the fetch fails. -/
def updateCheckStage (script_name : String) (m : ScriptMeta) (env : Env)
    (sched : Schedule) (rsn : Reason) (insF updF : Option FPath)
    (er : ExecResult) (tr : Trace) : PreOut :=
  if updF.isSome && er.updateFileOnDisk then
    match m.solr_update with
    | [] => .done (failResult script_name .indexError insF updF none tr sched)
    | uc :: _ =>
      match uc.key with
      | none =>
        .done (failResult script_name .updateConfMissingKey insF updF none tr sched)
      | some unique_key =>
        match validate_solr_update_file env.updateContent (uc.fields.getD [])
            unique_key with
        | .error ve =>
          .done (failResult script_name (.validation ve) insF updF none
            { tr with updateValidated := true } sched)
        | .ok docs =>
          match uc.core_name with
          | none =>
            .done (failResult script_name .missingCoreName insF updF none
              { tr with updateValidated := true } sched)
          | some _ =>
            if env.backupOk then
              .ready { reason := rsn, insF := insF, updF := updF
                       backF := some (FPath.backupFile script_name)
                       insertOnDisk := er.insertFileOnDisk
                       updateOnDisk := er.updateFileOnDisk
                       tr := backupTrace tr
                         (docs.filterMap (fun d => getField d unique_key)) true }
            else
              .done (failResult script_name .backupHttpError insF updF
                (some (FPath.backupFile script_name))
                (backupTrace tr
                  (docs.filterMap (fun d => getField d unique_key)) false)
                sched)
  else
    .ready { reason := rsn, insF := insF, updF := updF, backF := none
             insertOnDisk := er.insertFileOnDisk
             updateOnDisk := er.updateFileOnDisk
             tr := tr }

/-- The trace right after `execute_script` returned. -/
def execTrace : Trace := { Trace.empty with execInvoked := true }

/-- Insert-file branch of the loop body: validate the insert artifact
against the first `solr_insert` descriptor, then continue to the update
branch. -/
def insertCheckStage (script_name : String) (m : ScriptMeta) (env : Env)
    (sched : Schedule) (rsn : Reason) (insF updF : Option FPath)
    (er : ExecResult) : PreOut :=
  if insF.isSome && er.insertFileOnDisk then
    match m.solr_insert with
    | [] => .done (failResult script_name .indexError insF updF none execTrace sched)
    | ic :: _ =>
      match ic.key with
      | none =>
        .done (failResult script_name .insertConfMissingKey insF updF none
          execTrace sched)
      | some unique_key =>
        match validate_solr_insert_file env.insertContent unique_key with
        | .error ve =>
          .done (failResult script_name (.validation ve) insF updF none
            { execTrace with insertValidated := true } sched)
        | .ok _ =>
          updateCheckStage script_name m env sched rsn insF updF er
            { execTrace with insertValidated := true }
  else updateCheckStage script_name m env sched rsn insF updF er execTrace

/-- Dispatch on the result of `execute_script`: a raised error finishes
the job as a failure (no file paths were assigned), success hands the
returned paths to the validation branches. -/
def runStage (script_name : String) (m : ScriptMeta) (env : Env)
    (sched : Schedule) (rsn : Reason) (er : ExecResult) : PreOut :=
  match er.result with
  | .error e =>
    .done (failResult script_name e none none none execTrace sched)
  | .ok (insF, updF) =>
    insertCheckStage script_name m env sched rsn insF updF er

/-- The pipeline of one job up to the commit gate: the disabled /
no-script-file / not-due skips, then `execute_script`, then the two
validation branches. Global settings play no role before the gate. -/
def preCommit (script_name : String) (m : ScriptMeta) (env : Env)
    (sched : Schedule) : PreOut :=
  if m.disabled.getD true then
    .done (skipResult script_name .disabled sched)
  else if m.script_file.getD "" == "" then
    .done (skipResult script_name .noScriptFile sched)
  else if !(should_run m env.now).1 then
    .done (skipResult script_name (.runReason (should_run m env.now).2) sched)
  else
    runStage script_name m env sched (.runReason (should_run m env.now).2)
      (execute_script script_name env.exec
        (!m.solr_insert.isEmpty) (!m.solr_update.isEmpty))

/-- One `commit_solr_changes` call site: guarded by the file existing,
reading `core_name` from the first descriptor; the invocation is recorded
before its outcome, a non-zero exit re-raises. Returns the finished
failure result or the extended trace. -/
def commitFileStep (script_name : String) (mode : String)
    (confs : List SolrConf) (filePresent : Bool) (commitOk : Bool)
    (st : ReadyState) (tr : Trace) (sched : Schedule) :
    Except JobResult Trace :=
  if filePresent then
    match confs with
    | [] => .error (failResult script_name .indexError st.insF st.updF st.backF tr sched)
    | c :: _ =>
      match c.core_name with
      | none =>
        .error (failResult script_name .missingCoreName st.insF st.updF st.backF tr sched)
      | some core =>
        if commitOk then .ok { tr with commits := tr.commits ++ [(core, mode)] }
        else .error (failResult script_name (.commitFailed mode) st.insF st.updF
          st.backF { tr with commits := tr.commits ++ [(core, mode)] } sched)
  else .ok tr

/-- Successful end of the pipeline: `update_run_date` persists the run
timestamp and the Run Record gets status "success" (the reason is still
whatever `should_run` returned). -/
def successResult (script_name : String) (env : Env) (sched : Schedule)
    (st : ReadyState) (tr : Trace) : JobResult :=
  { entry := { script := script_name, status := .success, reason := st.reason
               insert_file := st.insF, update_file := st.updF
               backup_file := st.backF }
    sched := update_run_date script_name sched env.now
    trace := { tr with lastRunUpdated := true } }

/-- The commit gate: when `commit_solr` is enabled, commit the insert
file first, then the update file, each against its own core; then mark
the run successful. When disabled, no commit-tool invocation happens. -/
def commitStage (settings : Settings) (script_name : String)
    (m : ScriptMeta) (env : Env) (sched : Schedule) (st : ReadyState) :
    JobResult :=
  if settings.commit_solr.getD false then
    match commitFileStep script_name "insert" m.solr_insert
        (st.insF.isSome && st.insertOnDisk) env.commitInsertOk st st.tr sched with
    | .error r => r
    | .ok tr1 =>
      match commitFileStep script_name "update" m.solr_update
          (st.updF.isSome && st.updateOnDisk) env.commitUpdateOk st tr1 sched with
      | .error r => r
      | .ok tr2 => successResult script_name env sched st tr2
  else successResult script_name env sched st st.tr

/-- The whole loop body of `main` for one job. -/
def processScript (settings : Settings) (script_name : String)
    (m : ScriptMeta) (env : Env) (sched : Schedule) : JobResult :=
  match preCommit script_name m env sched with
  | .done r => r
  | .ready st => commitStage settings script_name m env sched st

/-- `append_run_history`: append one entry to the run history. -/
def append_run_history (history : List HistoryEntry) (entry : HistoryEntry) :
    List HistoryEntry :=
  history ++ [entry]

/-- The `for` loop of `main`: process each scheduled job in turn,
threading the persisted schedule and always appending exactly one Run
Record per job (the `finally` block). `envs` gives each job's external
effects. -/
def processAll (settings : Settings) (jobs : List (String × ScriptMeta))
    (envs : String → Env) (sched : Schedule) (history : List HistoryEntry) :
    List HistoryEntry × Schedule :=
  match jobs with
  | [] => (history, sched)
  | (script_name, m) :: rest =>
    let r := processScript settings script_name m (envs script_name) sched
    processAll settings rest envs r.sched (append_run_history history r.entry)

/-- Written from the spec's words (update check): the element is an
object containing the unique key, every non-key field is in the
caller-supplied whitelist, and every non-key field's value is an object
containing at least one of the operators set/add/remove/inc. -/
def specGoodUpdateDoc (allowed_fields : List String) (unique_key : String) :
    JVal → Bool
  | .obj fields =>
    hasField fields unique_key &&
      fields.all (fun p =>
        p.1 == unique_key || (allowed_fields.contains p.1 && isOpObj p.2))
  | _ => false

/-- Written from the spec's words (insert check): the element is an
object containing the unique key and no field holds an object-valued
payload containing any of the four operators. -/
def specGoodInsertDoc (unique_key : String) : JVal → Bool
  | .obj fields =>
    hasField fields unique_key && fields.all (fun p => !isOpObj p.2)
  | _ => false

/-! Concrete fixtures used by the witness theorems. -/

/-- A job due by force with a single update target. -/
def jobU : ScriptMeta :=
  { disabled := some false, script_file := some "x.py", last_run := 0
    interval_days := 1, force_run := some true
    solr_insert := []
    solr_update := [{ core_name := some "coreU", key := some "id"
                      fields := some ["count"] }] }

/-- A job due by force with one insert target and one update target. -/
def jobIU : ScriptMeta :=
  { jobU with
    solr_insert := [{ core_name := some "coreI", key := some "id"
                      fields := none }] }

/-- A schedule holding `jobU` under the name "job". -/
def schedU : Schedule :=
  { settings := { commit_solr := some true }, scripts := [("job", jobU)] }

/-- A well-formed one-document update artifact for unique key "id". -/
def updDoc : JVal := .arr [.obj [("id", .str "1"), ("count", .obj [("set", .num 5)])]]

/-- A well-formed one-document insert artifact for unique key "id". -/
def insDoc : JVal := .arr [.obj [("id", .str "1"), ("name", .str "a")]]

/-- An environment where everything succeeds and both artifacts exist. -/
def envOk : Env :=
  { now := 10
    exec := { scriptPresent := true, exitOk := true
              createdInsert := true, createdUpdate := true }
    insertContent := insDoc, updateContent := updDoc
    backupOk := true, commitInsertOk := true, commitUpdateOk := true }

/-- Like `envOk` but the backup HTTP fetch fails. -/
def envBackupFail : Env := { envOk with backupOk := false }

/-- Like `envOk` but the executable is absent. -/
def envNoScript : Env :=
  { envOk with exec := { envOk.exec with scriptPresent := false } }

/-- The schedule of the force-run scenario: a job with `force_run` set
and a long interval. -/
def jobForced : ScriptMeta :=
  { disabled := some false, script_file := some "x.py", last_run := 0
    interval_days := 30, force_run := some true
    solr_insert := [], solr_update := [] }

/-- Schedule holding `jobForced` under the name "job". -/
def schedForced : Schedule :=
  { settings := { commit_solr := some false }, scripts := [("job", jobForced)] }

/-- An environment where the script runs fine and produces no files. -/
def envPlain : Env :=
  { now := 5
    exec := { scriptPresent := true, exitOk := true
              createdInsert := false, createdUpdate := false }
    insertContent := .null, updateContent := .null
    backupOk := true, commitInsertOk := true, commitUpdateOk := true }

/-! ## Helper lemmas about the validators -/

theorem checkDocs_ok_iff (check : JVal → Except ValidationError Unit)
    (xs : List JVal) :
    checkDocs check xs = .ok () ↔ ∀ d ∈ xs, check d = .ok () := by
  induction xs with
  | nil => simp [checkDocs]
  | cons d ds ih =>
    unfold checkDocs
    cases h : check d with
    | error e => simp [h]
    | ok u => cases u; simp [h, ih]

theorem checkUpdateFields_ok_iff (allowed_fields : List String) (key : String)
    (fs : List (String × JVal)) :
    checkUpdateFields allowed_fields key fs = .ok () ↔
      fs.all (fun p =>
        p.1 == key || (allowed_fields.contains p.1 && isOpObj p.2)) = true := by
  induction fs with
  | nil => simp [checkUpdateFields]
  | cons p rest ih =>
    obtain ⟨f, v⟩ := p
    by_cases h1 : f = key
    · simp [checkUpdateFields, h1, ih]
    · by_cases h2 : f ∈ allowed_fields <;>
      cases h3 : isOpObj v <;>
        simp [checkUpdateFields, h1, h2, h3, ih]

theorem checkUpdateDoc_ok_iff (allowed_fields : List String) (key : String)
    (d : JVal) :
    checkUpdateDoc allowed_fields key d = .ok () ↔
      specGoodUpdateDoc allowed_fields key d = true := by
  cases d <;> simp [checkUpdateDoc, specGoodUpdateDoc]
  case obj fields =>
    cases h : hasField fields key <;>
      simp [h, checkUpdateFields_ok_iff]

theorem checkInsertDoc_ok_iff (key : String) (d : JVal) :
    checkInsertDoc key d = .ok () ↔ specGoodInsertDoc key d = true := by
  cases d <;> simp [checkInsertDoc, specGoodInsertDoc]
  case obj fields =>
    cases h : hasField fields key <;> simp [h]

theorem validate_update_ok_iff (xs : List JVal) (allowed_fields : List String)
    (key : String) :
    validate_solr_update_file (.arr xs) allowed_fields key = .ok xs ↔
      checkDocs (checkUpdateDoc allowed_fields key) xs = .ok () := by
  cases h : checkDocs (checkUpdateDoc allowed_fields key) xs with
  | error e => simp [validate_solr_update_file, validate_json, h]
  | ok u => cases u; simp [validate_solr_update_file, validate_json, h]

theorem validate_update_ok_all (xs : List JVal) (allowed_fields : List String)
    (key : String) :
    validate_solr_update_file (.arr xs) allowed_fields key = .ok xs ↔
      xs.all (specGoodUpdateDoc allowed_fields key) = true := by
  rw [validate_update_ok_iff, checkDocs_ok_iff]
  simp only [List.all_eq_true]
  constructor
  · intro h d hd
    exact (checkUpdateDoc_ok_iff allowed_fields key d).mp (h d hd)
  · intro h d hd
    exact (checkUpdateDoc_ok_iff allowed_fields key d).mpr (h d hd)

/-! ## Stage lemmas about the orchestrator -/

theorem updateCheckStage_done (script_name : String) (m : ScriptMeta)
    (env : Env) (sched : Schedule) (rsn : Reason) (insF updF : Option FPath)
    (er : ExecResult) (tr : Trace) (r : JobResult)
    (h : updateCheckStage script_name m env sched rsn insF updF er tr = .done r) :
    r.sched = sched ∧ r.entry.status = .failure ∧
    r.trace.commits = tr.commits ∧
    r.trace.lastRunUpdated = tr.lastRunUpdated ∧
    r.trace.execInvoked = tr.execInvoked ∧
    r.trace.insertValidated = tr.insertValidated ∧
    (∃ e, r.entry.reason = .error e ∧ r.trace.err = some e) ∧
    (r.trace.backupInvoked = true →
      tr.backupInvoked = true ∨ env.backupOk = false) := by
  unfold updateCheckStage at h
  repeat' split at h
  all_goals first
    | exact PreOut.noConfusion h
    | (injection h with h; subst h; simp_all [failResult, backupTrace])

theorem updateCheckStage_ready (script_name : String) (m : ScriptMeta)
    (env : Env) (sched : Schedule) (rsn : Reason) (insF updF : Option FPath)
    (er : ExecResult) (tr : Trace) (st : ReadyState)
    (h : updateCheckStage script_name m env sched rsn insF updF er tr = .ready st) :
    st.reason = rsn ∧ st.insF = insF ∧ st.updF = updF ∧
    st.insertOnDisk = er.insertFileOnDisk ∧
    st.updateOnDisk = er.updateFileOnDisk ∧
    st.tr.commits = tr.commits ∧
    st.tr.lastRunUpdated = tr.lastRunUpdated ∧
    st.tr.execInvoked = tr.execInvoked ∧
    st.tr.insertValidated = tr.insertValidated ∧
    st.tr.err = tr.err ∧
    ((updF.isSome && er.updateFileOnDisk) = true →
      st.tr.backupInvoked = true ∧ st.tr.backupSucceeded = true ∧
      env.backupOk = true ∧ st.tr.updateValidated = true) ∧
    ((updF.isSome && er.updateFileOnDisk) = false → st.tr = tr) := by
  unfold updateCheckStage at h
  repeat' split at h
  all_goals first
    | exact PreOut.noConfusion h
    | (injection h with h; subst h; simp_all [backupTrace])

theorem insertCheckStage_done (script_name : String) (m : ScriptMeta)
    (env : Env) (sched : Schedule) (rsn : Reason) (insF updF : Option FPath)
    (er : ExecResult) (r : JobResult)
    (h : insertCheckStage script_name m env sched rsn insF updF er = .done r) :
    r.sched = sched ∧ r.entry.status = .failure ∧
    r.trace.commits = [] ∧ r.trace.lastRunUpdated = false ∧
    (∃ e, r.entry.reason = .error e ∧ r.trace.err = some e) ∧
    (r.trace.backupInvoked = true → env.backupOk = false) := by
  unfold insertCheckStage at h
  repeat' split at h
  all_goals first
    | exact PreOut.noConfusion h
    | (injection h with h; subst h;
       simp_all [failResult, execTrace, Trace.empty])
    | (obtain ⟨h1, h2, h3, h4, h5, h6, h7, h8⟩ :=
         updateCheckStage_done _ _ _ _ _ _ _ _ _ _ h
       refine ⟨h1, h2, ?_, ?_, h7, ?_⟩ <;>
         simp_all [execTrace, Trace.empty])

theorem insertCheckStage_ready (script_name : String) (m : ScriptMeta)
    (env : Env) (sched : Schedule) (rsn : Reason) (insF updF : Option FPath)
    (er : ExecResult) (st : ReadyState)
    (h : insertCheckStage script_name m env sched rsn insF updF er = .ready st) :
    st.reason = rsn ∧ st.insF = insF ∧ st.updF = updF ∧
    st.insertOnDisk = er.insertFileOnDisk ∧
    st.updateOnDisk = er.updateFileOnDisk ∧
    st.tr.commits = [] ∧ st.tr.lastRunUpdated = false ∧
    st.tr.execInvoked = true ∧ st.tr.err = none ∧
    (st.tr.insertValidated = true →
      (insF.isSome && er.insertFileOnDisk) = true) ∧
    ((updF.isSome && er.updateFileOnDisk) = true →
      st.tr.backupInvoked = true ∧ st.tr.backupSucceeded = true ∧
      env.backupOk = true ∧ st.tr.updateValidated = true) ∧
    (st.tr.updateValidated = true →
      (updF.isSome && er.updateFileOnDisk) = true) ∧
    (st.tr.backupInvoked = true → env.backupOk = true) := by
  unfold insertCheckStage at h
  repeat' split at h
  all_goals first
    | exact PreOut.noConfusion h
    | (obtain ⟨p1, p2, p3, p4, p5, p6, p7, p8, p9, p10, p11, p12⟩ :=
         updateCheckStage_ready _ _ _ _ _ _ _ _ _ _ h
       cases hg : (updF.isSome && er.updateFileOnDisk) with
       | true =>
         obtain ⟨b1, b2, b3, b4⟩ := p11 hg
         refine ⟨p1, p2, p3, p4, p5, ?_, ?_, ?_, ?_, ?_, ?_, ?_, ?_⟩ <;>
           simp_all [execTrace, Trace.empty]
       | false =>
         have hst := p12 hg
         refine ⟨p1, p2, p3, p4, p5, ?_, ?_, ?_, ?_, ?_, ?_, ?_, ?_⟩ <;>
           simp_all [execTrace, Trace.empty])

theorem preCommit_done (script_name : String) (m : ScriptMeta) (env : Env)
    (sched : Schedule) (r : JobResult)
    (h : preCommit script_name m env sched = .done r) :
    r.sched = sched ∧ r.trace.commits = [] ∧
    r.trace.lastRunUpdated = false ∧
    (r.entry.status = .failure ∨ r.entry.status = .skipped) ∧
    (r.entry.status = .failure →
      ∃ e, r.entry.reason = .error e ∧ r.trace.err = some e) ∧
    (r.entry.status = .skipped → r.trace.err = none) ∧
    (r.trace.backupInvoked = true →
      env.backupOk = false ∧ r.entry.status = .failure) := by
  unfold preCommit runStage at h
  repeat' split at h
  all_goals first
    | exact PreOut.noConfusion h
    | (injection h with h; subst h;
       simp_all [skipResult, failResult, execTrace, Trace.empty])
    | (obtain ⟨d1, d2, d3, d4, d5, d6⟩ :=
         insertCheckStage_done _ _ _ _ _ _ _ _ _ h
       refine ⟨d1, d3, d4, Or.inl d2, fun _ => d5, ?_, fun hb => ⟨d6 hb, d2⟩⟩
       intro hs
       rw [d2] at hs
       exact absurd hs (by simp))

theorem preCommit_ready (script_name : String) (m : ScriptMeta) (env : Env)
    (sched : Schedule) (st : ReadyState)
    (h : preCommit script_name m env sched = .ready st) :
    st.tr.commits = [] ∧ st.tr.lastRunUpdated = false ∧ st.tr.err = none ∧
    (st.tr.insertValidated = true →
      (st.insF.isSome && st.insertOnDisk) = true) ∧
    (st.tr.updateValidated = true →
      (st.updF.isSome && st.updateOnDisk) = true) ∧
    ((st.updF.isSome && st.updateOnDisk) = true →
      st.tr.backupInvoked = true ∧ st.tr.backupSucceeded = true ∧
      env.backupOk = true) ∧
    (st.tr.backupInvoked = true → env.backupOk = true) := by
  unfold preCommit runStage at h
  repeat' split at h
  all_goals first
    | exact PreOut.noConfusion h
    | (obtain ⟨p1, p2, p3, p4, p5, p6, p7, p8, p9, p10, p11, p12, p13⟩ :=
         insertCheckStage_ready _ _ _ _ _ _ _ _ _ h
       refine ⟨p6, p7, p9, ?_, ?_, ?_, p13⟩
       · rw [p2, p4]; exact p10
       · rw [p3, p5]; exact p12
       · rw [p3, p5]
         intro hg
         obtain ⟨a, b, c, d⟩ := p11 hg
         exact ⟨a, b, c⟩)

theorem commitFileStep_absent (script_name mode : String)
    (confs : List SolrConf) (commitOk : Bool) (st : ReadyState) (tr : Trace)
    (sched : Schedule) :
    commitFileStep script_name mode confs false commitOk st tr sched
      = .ok tr := by
  simp [commitFileStep]

theorem commitFileStep_ok (script_name mode : String) (c : SolrConf)
    (rest : List SolrConf) (core : String) (st : ReadyState) (tr : Trace)
    (sched : Schedule) (hcore : c.core_name = some core) :
    commitFileStep script_name mode (c :: rest) true true st tr sched
      = .ok { tr with commits := tr.commits ++ [(core, mode)] } := by
  simp [commitFileStep, hcore]

theorem commitFileStep_fail (script_name mode : String) (c : SolrConf)
    (rest : List SolrConf) (core : String) (st : ReadyState) (tr : Trace)
    (sched : Schedule) (hcore : c.core_name = some core) :
    commitFileStep script_name mode (c :: rest) true false st tr sched
      = .error (failResult script_name (.commitFailed mode) st.insF st.updF
          st.backF { tr with commits := tr.commits ++ [(core, mode)] } sched) := by
  simp [commitFileStep, hcore]

theorem commitFileStep_error_spec (script_name mode : String)
    (confs : List SolrConf) (present commitOk : Bool) (st : ReadyState)
    (tr : Trace) (sched : Schedule) (r : JobResult)
    (h : commitFileStep script_name mode confs present commitOk st tr sched
      = .error r) :
    present = true ∧ r.sched = sched ∧ r.entry.status = .failure ∧
    r.entry.insert_file = st.insF ∧ r.entry.update_file = st.updF ∧
    r.entry.backup_file = st.backF ∧
    r.trace.execInvoked = tr.execInvoked ∧
    r.trace.insertValidated = tr.insertValidated ∧
    r.trace.updateValidated = tr.updateValidated ∧
    r.trace.backupInvoked = tr.backupInvoked ∧
    r.trace.backupSucceeded = tr.backupSucceeded ∧
    r.trace.lastRunUpdated = tr.lastRunUpdated ∧
    (∃ e, r.entry.reason = .error e ∧ r.trace.err = some e) ∧
    (∀ p, p ∈ r.trace.commits → p ∈ tr.commits ∨ p.2 = mode) := by
  unfold commitFileStep at h
  repeat' split at h
  all_goals first
    | exact Except.noConfusion h
    | (injection h with h; subst h
       refine ⟨by simp_all, by simp [failResult], by simp [failResult],
         by simp [failResult], by simp [failResult], by simp [failResult],
         by simp [failResult], by simp [failResult], by simp [failResult],
         by simp [failResult], by simp [failResult], by simp [failResult],
         (by exact ⟨_, rfl, rfl⟩), ?_⟩
       intro p hp
       try simp only [failResult] at hp
       try simp only [List.mem_append, List.mem_singleton] at hp ⊢
       first
         | exact Or.inl hp
         | (rcases hp with hp | hp
            · exact Or.inl hp
            · subst hp; exact Or.inr rfl))

theorem commitFileStep_ok_spec (script_name mode : String)
    (confs : List SolrConf) (present commitOk : Bool) (st : ReadyState)
    (tr tr2 : Trace) (sched : Schedule)
    (h : commitFileStep script_name mode confs present commitOk st tr sched
      = .ok tr2) :
    tr2.execInvoked = tr.execInvoked ∧
    tr2.insertValidated = tr.insertValidated ∧
    tr2.updateValidated = tr.updateValidated ∧
    tr2.backupInvoked = tr.backupInvoked ∧
    tr2.backupSucceeded = tr.backupSucceeded ∧
    tr2.lastRunUpdated = tr.lastRunUpdated ∧
    tr2.err = tr.err ∧
    (present = false → tr2 = tr) ∧
    (∀ p, p ∈ tr2.commits → p ∈ tr.commits ∨ p.2 = mode) := by
  unfold commitFileStep at h
  repeat' split at h
  all_goals first
    | exact Except.noConfusion h
    | (injection h with h; subst h
       refine ⟨by simp, by simp, by simp, by simp, by simp, by simp, by simp,
         by simp_all, ?_⟩
       intro p hp
       try simp only [List.mem_append, List.mem_singleton] at hp ⊢
       first
         | exact Or.inl hp
         | (rcases hp with hp | hp
            · exact Or.inl hp
            · subst hp; exact Or.inr rfl))

theorem commitStage_spec (settings : Settings) (script_name : String)
    (m : ScriptMeta) (env : Env) (sched : Schedule) (st : ReadyState)
    (r : JobResult)
    (hr : commitStage settings script_name m env sched st = r) :
    r.trace.execInvoked = st.tr.execInvoked ∧
    r.trace.insertValidated = st.tr.insertValidated ∧
    r.trace.updateValidated = st.tr.updateValidated ∧
    r.trace.backupInvoked = st.tr.backupInvoked ∧
    r.trace.backupSucceeded = st.tr.backupSucceeded ∧
    r.entry.insert_file = st.insF ∧
    r.entry.update_file = st.updF ∧
    r.entry.backup_file = st.backF ∧
    r.entry.status ≠ .skipped ∧
    (r.entry.status = .failure →
      r.sched = sched ∧ r.trace.lastRunUpdated = st.tr.lastRunUpdated ∧
      ∃ e, r.entry.reason = .error e ∧ r.trace.err = some e) ∧
    (r.entry.status = .success →
      r.sched = update_run_date script_name sched env.now ∧
      r.trace.lastRunUpdated = true ∧ r.trace.err = st.tr.err ∧
      r.entry.reason = st.reason) ∧
    (settings.commit_solr.getD false = false →
      r.trace.commits = st.tr.commits) ∧
    (st.tr.commits = [] →
      r.trace.commits.any (fun c => c.2 == "update") = true →
      (st.updF.isSome && st.updateOnDisk) = true) := by
  unfold commitStage at hr
  split at hr
  case isTrue hon =>
    split at hr
    case h_1 r1 heq1 =>
      subst hr
      obtain ⟨pres, rsched, rstat, rif, ruf, rbf, rex, rinsv, rupdv, rbki,
        rbks, rlru, rexi, rcom⟩ :=
        commitFileStep_error_spec _ _ _ _ _ _ _ _ _ heq1
      refine ⟨rex, rinsv, rupdv, rbki, rbks, rif, ruf, rbf,
        by simp [rstat], fun _ => ⟨rsched, rlru, rexi⟩,
        fun hsu => absurd hsu (by simp [rstat]),
        fun hoff => absurd hon (by simp [hoff]), ?_⟩
      intro hc hany
      rw [List.any_eq_true] at hany
      obtain ⟨p, hp, hup⟩ := hany
      rcases rcom p hp with h | h
      · rw [hc] at h; cases h
      · rw [h] at hup; exact absurd hup (by decide)
    case h_2 tr1 heq1 =>
      obtain ⟨o1, o2, o3, o4, o5, o6, o7, o8, o9⟩ :=
        commitFileStep_ok_spec _ _ _ _ _ _ _ _ _ heq1
      split at hr
      case h_1 r2 heq2 =>
        subst hr
        obtain ⟨pres, rsched, rstat, rif, ruf, rbf, rex, rinsv, rupdv, rbki,
          rbks, rlru, rexi, rcom⟩ :=
          commitFileStep_error_spec _ _ _ _ _ _ _ _ _ heq2
        exact ⟨rex.trans o1, rinsv.trans o2, rupdv.trans o3, rbki.trans o4,
          rbks.trans o5, rif, ruf, rbf, by simp [rstat],
          fun _ => ⟨rsched, rlru.trans o6, rexi⟩,
          fun hsu => absurd hsu (by simp [rstat]),
          fun hoff => absurd hon (by simp [hoff]),
          fun _ _ => pres⟩
      case h_2 tr2 heq2 =>
        subst hr
        obtain ⟨q1, q2, q3, q4, q5, q6, q7, q8, q9⟩ :=
          commitFileStep_ok_spec _ _ _ _ _ _ _ _ _ heq2
        refine ⟨q1.trans o1, q2.trans o2, q3.trans o3, q4.trans o4,
          q5.trans o5, rfl, rfl, rfl, by simp [successResult],
          fun hf => absurd hf (by simp [successResult]),
          fun _ => ⟨rfl, rfl, q7.trans o7, rfl⟩,
          fun hoff => absurd hon (by simp [hoff]), ?_⟩
        intro hc hany
        rw [List.any_eq_true] at hany
        obtain ⟨p, hp, hup⟩ := hany
        simp only [successResult] at hp
        by_cases hg : (st.updF.isSome && st.updateOnDisk) = true
        · exact hg
        · have hg2 : (st.updF.isSome && st.updateOnDisk) = false := by
            revert hg; cases (st.updF.isSome && st.updateOnDisk) <;> simp
          have htr : tr2 = tr1 := q8 hg2
          rw [htr] at hp
          rcases o9 p hp with h | h
          · rw [hc] at h; cases h
          · rw [h] at hup; exact absurd hup (by decide)
  case isFalse hon =>
    subst hr
    refine ⟨rfl, rfl, rfl, rfl, rfl, rfl, rfl, rfl, by simp [successResult],
      fun hf => absurd hf (by simp [successResult]),
      fun _ => ⟨rfl, rfl, rfl, rfl⟩, fun _ => rfl, ?_⟩
    intro hc hany
    simp only [successResult] at hany
    rw [hc] at hany
    cases hany

theorem commitStage_order (settings : Settings) (script_name : String)
    (m : ScriptMeta) (env : Env) (sched : Schedule) (st : ReadyState)
    (r : JobResult) (ic uc : SolrConf) (rest1 rest2 : List SolrConf)
    (ci cu : String)
    (hon : settings.commit_solr.getD false = true)
    (hins : m.solr_insert = ic :: rest1) (hci : ic.core_name = some ci)
    (hupd : m.solr_update = uc :: rest2) (hcu : uc.core_name = some cu)
    (hgi : (st.insF.isSome && st.insertOnDisk) = true)
    (hgu : (st.updF.isSome && st.updateOnDisk) = true)
    (hc0 : st.tr.commits = [])
    (hr : commitStage settings script_name m env sched st = r)
    (hs : r.entry.status = .success) :
    r.trace.commits = [(ci, "insert"), (cu, "update")] := by
  unfold commitStage at hr
  split at hr
  case isFalse hoff => exact absurd hon hoff
  case isTrue _ =>
    split at hr
    case h_1 r1 heq1 =>
      subst hr
      obtain ⟨_, _, e3, _⟩ := commitFileStep_error_spec _ _ _ _ _ _ _ _ _ heq1
      rw [e3] at hs; cases hs
    case h_2 tr1 heq1 =>
      split at hr
      case h_1 r2 heq2 =>
        subst hr
        obtain ⟨_, _, e3, _⟩ :=
          commitFileStep_error_spec _ _ _ _ _ _ _ _ _ heq2
        rw [e3] at hs; cases hs
      case h_2 tr2 heq2 =>
        subst hr
        rw [hins, hgi] at heq1
        cases hIok : env.commitInsertOk with
        | false =>
          rw [hIok, commitFileStep_fail _ _ _ _ _ _ _ _ hci] at heq1
          cases heq1
        | true =>
          rw [hIok, commitFileStep_ok _ _ _ _ _ _ _ _ hci] at heq1
          injection heq1 with heq1
          rw [hupd, hgu] at heq2
          cases hUok : env.commitUpdateOk with
          | false =>
            rw [hUok, commitFileStep_fail _ _ _ _ _ _ _ _ hcu] at heq2
            cases heq2
          | true =>
            rw [hUok, commitFileStep_ok _ _ _ _ _ _ _ _ hcu] at heq2
            injection heq2 with heq2
            subst heq1
            subst heq2
            simp [successResult, hc0]

theorem processScript_done (settings : Settings) (script_name : String)
    (m : ScriptMeta) (env : Env) (sched : Schedule) (r : JobResult)
    (hp : preCommit script_name m env sched = .done r) :
    processScript settings script_name m env sched = r := by
  unfold processScript
  rw [hp]

theorem processScript_ready (settings : Settings) (script_name : String)
    (m : ScriptMeta) (env : Env) (sched : Schedule) (st : ReadyState)
    (hp : preCommit script_name m env sched = .ready st) :
    processScript settings script_name m env sched
      = commitStage settings script_name m env sched st := by
  unfold processScript
  rw [hp]

theorem processAll_length (settings : Settings)
    (jobs : List (String × ScriptMeta)) (envs : String → Env)
    (sched : Schedule) (history : List HistoryEntry) :
    (processAll settings jobs envs sched history).1.length
      = history.length + jobs.length := by
  induction jobs generalizing sched history with
  | nil => simp [processAll]
  | cons j rest ih =>
    obtain ⟨script_name, m⟩ := j
    rw [processAll, ih]
    simp [append_run_history]
    omega

theorem processAll_preserve (settings : Settings)
    (jobs : List (String × ScriptMeta)) (envs : String → Env)
    (i : Nat) (sched : Schedule) (history : List HistoryEntry)
    (hi : i < history.length) :
    (processAll settings jobs envs sched history).1[i]?
      = history[i]? := by
  induction jobs generalizing sched history with
  | nil => simp [processAll]
  | cons j rest ih =>
    obtain ⟨script_name, m⟩ := j
    rw [processAll, ih]
    · exact List.getElem?_append_left hi
    · simp [append_run_history]
      omega

theorem processAll_first (settings : Settings) (script_name : String)
    (m : ScriptMeta) (rest : List (String × ScriptMeta))
    (envs : String → Env) (sched : Schedule) (history : List HistoryEntry) :
    (processAll settings ((script_name, m) :: rest) envs sched
        history).1[history.length]?
      = some (processScript settings script_name m (envs script_name)
          sched).entry := by
  rw [processAll, processAll_preserve]
  · rw [append_run_history, List.getElem?_append_right (le_refl _)]
    simp
  · simp [append_run_history]

/-! ## Claim theorems (continued) -/

/-- C1: the commit of an update is never invoked unless the backup of
the affected documents completed successfully; when the backup fetch
fails, no commit happens, the Run Record has status "failure", and the
schedule (hence `last_run`) is unchanged. -/
theorem C1_backup_gates_commit (settings : Settings) (script_name : String)
    (m : ScriptMeta) (env : Env) (sched : Schedule) :
    ((processScript settings script_name m env sched).trace.commits.any
        (fun c => c.2 == "update") = true →
      (processScript settings script_name m env sched).trace.backupInvoked
          = true ∧
      (processScript settings script_name m env sched).trace.backupSucceeded
          = true ∧
      env.backupOk = true) ∧
    ((processScript settings script_name m env sched).trace.backupInvoked
        = true →
      env.backupOk = false →
      (processScript settings script_name m env sched).entry.status
          = .failure ∧
      (processScript settings script_name m env sched).trace.commits = [] ∧
      (processScript settings script_name m env sched).sched = sched ∧
      (processScript settings script_name m env sched).trace.lastRunUpdated
          = false) := by
  cases hp : preCommit script_name m env sched with
  | done r =>
    simp only [processScript_done settings script_name m env sched r hp]
    obtain ⟨d1, d2, d3, d4, d5, d6, d7⟩ := preCommit_done _ _ _ _ _ hp
    constructor
    · intro hany
      rw [d2] at hany
      simp at hany
    · intro hb _
      exact ⟨(d7 hb).2, d2, d1, d3⟩
  | ready st =>
    simp only [processScript_ready settings script_name m env sched st hp]
    obtain ⟨p1, p2, p3, p4, p5, p6, p7⟩ := preCommit_ready _ _ _ _ _ hp
    obtain ⟨c1, c2, c3, c4, c5, c6, c7, c8, c9, c10, c11, c12, c13⟩ :=
      commitStage_spec settings script_name m env sched st _ rfl
    constructor
    · intro hany
      obtain ⟨b1, b2, b3⟩ := p6 (c13 p1 hany)
      exact ⟨c4.trans b1, c5.trans b2, b3⟩
    · intro hb hbf
      rw [c4] at hb
      have hok := p7 hb
      rw [hbf] at hok
      exact absurd hok (by simp)

/-- Witness for C1: a job with an update target whose backup HTTP fetch
fails ends in "failure" with no commit invoked and the schedule intact. -/
theorem C1_witness :
    (processScript { commit_solr := some true } "job" jobU envBackupFail
        schedU).trace.backupInvoked = true ∧
    envBackupFail.backupOk = false ∧
    (processScript { commit_solr := some true } "job" jobU envBackupFail
        schedU).entry.status = Status.failure ∧
    (processScript { commit_solr := some true } "job" jobU envBackupFail
        schedU).trace.commits = [] ∧
    (processScript { commit_solr := some true } "job" jobU envBackupFail
        schedU).sched = schedU := by
  have h := (C1_backup_gates_commit { commit_solr := some true } "job" jobU
    envBackupFail schedU).2 rfl rfl
  exact ⟨rfl, rfl, h.1, h.2.1, h.2.2.1⟩

/-- C2: `should_run` returns run=true iff `force_run` is true or
`current_time >= last_run + interval_days` (equality triggers a run);
with `force_run` set, `last_run` and `interval_days` are ignored
entirely. It is a pure function of the descriptor and the current time
(here by construction: both are explicit arguments). -/
theorem C2_should_run_decision (m : ScriptMeta) (t : Int) :
    ((should_run m t).1 = true ↔
      m.force_run.getD false = true ∨ m.last_run + m.interval_days ≤ t) ∧
    (∀ lr iv : Int,
      should_run { m with force_run := some true, last_run := lr,
                          interval_days := iv } t
        = (true, RunReason.forced)) ∧
    should_run { m with force_run := some false }
        (m.last_run + m.interval_days)
      = (true, RunReason.nextRunDate (m.last_run + m.interval_days)) := by
  refine ⟨?_, ?_, ?_⟩
  · by_cases h : m.force_run.getD false = true <;>
      simp [should_run, get_next_run_date, h]
  · intro lr iv
    simp [should_run]
  · simp [should_run, get_next_run_date]

/-- Witness for C2: a forced job runs, and a non-forced job runs exactly
at the boundary `last_run + interval_days`. -/
theorem C2_should_run_decision_witness :
    (should_run jobForced 3).1 = true ∧
    should_run { jobForced with force_run := some false } 30
      = (true, RunReason.nextRunDate 30) := by
  constructor
  · exact (C2_should_run_decision jobForced 3).1.mpr (Or.inl rfl)
  · have h := (C2_should_run_decision { jobForced with force_run := none } 0).2.2
    simpa [jobForced] using h

/-- C8: update validation succeeds on a JSON array iff every element is
an object containing the unique key, every non-key field is in the
caller-supplied whitelist, and every non-key field's value is an object
containing at least one of set/add/remove/inc; on success it returns
exactly the parsed document list; a non-array artifact fails with the
invalid-format error. -/
theorem C8_update_validation (xs : List JVal) (allowed_fields : List String)
    (key : String) :
    (validate_solr_update_file (.arr xs) allowed_fields key = .ok xs ↔
      xs.all (specGoodUpdateDoc allowed_fields key) = true) ∧
    (∀ r, validate_solr_update_file (.arr xs) allowed_fields key = .ok r →
      r = xs) ∧
    (∀ v : JVal, (∀ ys : List JVal, v ≠ .arr ys) →
      validate_solr_update_file v allowed_fields key
        = .error .invalidFormat) := by
  refine ⟨validate_update_ok_all xs allowed_fields key, ?_, ?_⟩
  · intro r hr
    unfold validate_solr_update_file validate_json at hr
    cases h : checkDocs (checkUpdateDoc allowed_fields key) xs <;>
      simp [h] at hr
    exact hr.symm
  · intro v hv
    cases v <;> simp [validate_solr_update_file, validate_json]
    exact absurd rfl (hv _)

/-- Witness for C8: the spec's own examples — `{"id": "1", "count":
{"set": 5}}` passes with whitelist `["count"]`; a sole boolean artifact
(non-array) fails with the invalid-format error. -/
theorem C8_update_validation_witness :
    validate_solr_update_file updDoc ["count"] "id"
      = .ok [.obj [("id", .str "1"), ("count", .obj [("set", .num 5)])]] ∧
    validate_solr_update_file (.bool true) ["count"] "id"
      = .error .invalidFormat := by
  constructor
  · exact (C8_update_validation
      [.obj [("id", .str "1"), ("count", .obj [("set", .num 5)])]]
      ["count"] "id").1.mpr (by decide)
  · exact (C8_update_validation [] ["count"] "id").2.2 (.bool true)
      (by intro ys h; cases h)

/-- C9: insert validation succeeds on a JSON array iff every element is
an object containing the unique key and no field holds an operator-shaped
object value; a document missing the key fails with the missing-key
error, and an operator-shaped value (with the key present) fails with the
invalid-insert-shape error. -/
theorem C9_insert_validation (xs : List JVal) (key : String) :
    (validate_solr_insert_file (.arr xs) key = .ok () ↔
      xs.all (specGoodInsertDoc key) = true) ∧
    (∀ fields, hasField fields key = false →
      checkInsertDoc key (.obj fields) = .error .missingKey) ∧
    (∀ fields, hasField fields key = true →
      fields.any (fun p => isOpObj p.2) = true →
      checkInsertDoc key (.obj fields) = .error .invalidInsertShape) ∧
    (∀ v : JVal, (∀ ys : List JVal, v ≠ .arr ys) →
      validate_solr_insert_file v key = .error .invalidFormat) := by
  refine ⟨?_, ?_, ?_, ?_⟩
  · unfold validate_solr_insert_file validate_json
    rw [checkDocs_ok_iff]
    simp only [List.all_eq_true]
    constructor
    · intro h d hd
      exact (checkInsertDoc_ok_iff key d).mp (h d hd)
    · intro h d hd
      exact (checkInsertDoc_ok_iff key d).mpr (h d hd)
  · intro fields h
    simp [checkInsertDoc, h]
  · intro fields h h2
    simp [checkInsertDoc, h, h2]
  · intro v hv
    cases v <;> simp [validate_solr_insert_file, validate_json]
    exact absurd rfl (hv _)

/-- Witness for C9: the spec's example — `{"id": "1", "count":
{"inc": 5}}` is rejected with the invalid-insert-shape error, while a
plain-valued document passes. -/
theorem C9_insert_validation_witness :
    checkInsertDoc "id" (.obj [("id", .str "1"), ("count", .obj [("inc", .num 5)])])
      = .error .invalidInsertShape ∧
    validate_solr_insert_file insDoc "id" = .ok () := by
  constructor
  · exact (C9_insert_validation [] "id").2.2.1
      [("id", .str "1"), ("count", .obj [("inc", .num 5)])]
      (by decide) (by decide)
  · exact (C9_insert_validation
      [.obj [("id", .str "1"), ("name", .str "a")]] "id").1.mpr (by decide)

/-- C10: when the first update-target descriptor omits `fields`, the
whitelist computed by the orchestrator (`update_conf.get("fields", [])`)
is the empty list, and with it a document passes update validation iff it
is an object all of whose fields are the unique key (which must be
present): any other field is rejected. -/
theorem C10_default_whitelist (c k : Option String) (key : String) :
    (SolrConf.mk c k none).fields.getD [] = [] ∧
    (∀ fields : List (String × JVal),
      checkUpdateDoc ((SolrConf.mk c k none).fields.getD []) key (.obj fields)
          = .ok () ↔
        (hasField fields key = true ∧ ∀ p ∈ fields, p.1 = key)) ∧
    (∀ xs : List JVal,
      validate_solr_update_file (.arr xs) ((SolrConf.mk c k none).fields.getD [])
          key = .ok xs ↔
        xs.all (specGoodUpdateDoc [] key) = true) := by
  refine ⟨rfl, ?_, ?_⟩
  · intro fields
    rw [checkUpdateDoc_ok_iff]
    cases h : hasField fields key <;>
      simp [specGoodUpdateDoc, h, List.all_eq_true]
  · intro xs
    exact validate_update_ok_all xs [] key

/-- Witness for C10: with the empty whitelist, a document holding only
the unique key passes; the same document with one extra field fails. -/
theorem C10_default_whitelist_witness :
    checkUpdateDoc ((SolrConf.mk (some "c") (some "id") none).fields.getD [])
        "id" (.obj [("id", .str "1")]) = .ok () ∧
    ¬ checkUpdateDoc ((SolrConf.mk (some "c") (some "id") none).fields.getD [])
        "id" (.obj [("id", .str "1"), ("count", .obj [("set", .num 5)])])
      = .ok () := by
  constructor
  · exact ((C10_default_whitelist (some "c") (some "id") "id").2.1
      [("id", .str "1")]).mpr (by constructor <;> decide)
  · intro h
    have := ((C10_default_whitelist (some "c") (some "id") "id").2.1
      [("id", .str "1"), ("count", .obj [("set", .num 5)])]).mp h
    have h2 := this.2 ("count", .obj [("set", .num 5)]) (by simp)
    simp at h2

/-- C3: the loop appends exactly one Run Record per processed job — the
history grows by exactly the number of jobs, the record appended for a
job is that job's `processScript` entry (carrying status, reason, and
the produced file paths) — and jobs skipped as disabled, lacking a
script file, or not yet due receive an entry with status "skipped". -/
theorem C3_one_record_per_job :
    (∀ (settings : Settings) (jobs : List (String × ScriptMeta))
        (envs : String → Env) (sched : Schedule)
        (history : List HistoryEntry),
      (processAll settings jobs envs sched history).1.length
        = history.length + jobs.length) ∧
    (∀ (settings : Settings) (script_name : String) (m : ScriptMeta)
        (rest : List (String × ScriptMeta)) (envs : String → Env)
        (sched : Schedule) (history : List HistoryEntry),
      (processAll settings ((script_name, m) :: rest) envs sched
          history).1[history.length]?
        = some (processScript settings script_name m (envs script_name)
            sched).entry) ∧
    (∀ (settings : Settings) (script_name : String) (m : ScriptMeta)
        (env : Env) (sched : Schedule),
      (processScript settings script_name
          { m with disabled := some true } env sched).entry
        = { script := script_name, status := .skipped,
            reason := .disabled, insert_file := none,
            update_file := none, backup_file := none }) ∧
    (∀ (settings : Settings) (script_name : String) (m : ScriptMeta)
        (env : Env) (sched : Schedule),
      (processScript settings script_name
          { m with disabled := some false, script_file := none }
          env sched).entry
        = { script := script_name, status := .skipped,
            reason := .noScriptFile, insert_file := none,
            update_file := none, backup_file := none }) ∧
    (∀ (settings : Settings) (script_name : String) (m : ScriptMeta)
        (env : Env) (sched : Schedule) (t : Int),
      (processScript settings script_name
          { m with disabled := some false
                   script_file := some "x.py"
                   force_run := some false
                   last_run := t
                   interval_days := 1 }
          { env with now := t } sched).entry
        = { script := script_name, status := .skipped,
            reason := .runReason (.nextRunDate (t + 1)),
            insert_file := none, update_file := none,
            backup_file := none }) := by
  refine ⟨processAll_length, processAll_first, ?_, ?_, ?_⟩
  · intro settings script_name m env sched
    rfl
  · intro settings script_name m env sched
    rfl
  · intro settings script_name m env sched t
    have hlt : ¬ (t + 1 ≤ t) := by omega
    simp [processScript, preCommit, should_run, get_next_run_date,
      skipResult, hlt]

/-- C4: every error in one job's pipeline is converted into a "failure"
Run Record whose reason is that error, the schedule is not rewritten on
failure (so `last_run` is unchanged), and the loop always continues with
the remaining jobs, which still get their own Run Records. -/
theorem C4_job_failure_isolated :
    (∀ (settings : Settings) (script_name : String) (m : ScriptMeta)
        (env : Env) (sched : Schedule),
      (processScript settings script_name m env sched).entry.status
          = .failure →
      (processScript settings script_name m env sched).sched = sched ∧
      (processScript settings script_name m env sched).trace.lastRunUpdated
          = false ∧
      ∃ e, (processScript settings script_name m env sched).entry.reason
          = .error e) ∧
    (∀ (settings : Settings) (script_name : String) (m : ScriptMeta)
        (env : Env) (sched : Schedule) (e : JobError),
      (processScript settings script_name m env sched).trace.err = some e →
      (processScript settings script_name m env sched).entry.status
          = .failure ∧
      (processScript settings script_name m env sched).entry.reason
          = .error e) ∧
    (∀ (settings : Settings) (script_name : String) (m : ScriptMeta)
        (rest : List (String × ScriptMeta)) (envs : String → Env)
        (sched : Schedule) (history : List HistoryEntry),
      (processAll settings ((script_name, m) :: rest) envs sched
          history).1.length
        = history.length + 1 + rest.length) := by
  refine ⟨?_, ?_, ?_⟩
  · intro settings script_name m env sched hf
    cases hp : preCommit script_name m env sched with
    | done r =>
      simp only [processScript_done settings script_name m env sched r hp]
        at hf ⊢
      obtain ⟨d1, d2, d3, d4, d5, d6, d7⟩ := preCommit_done _ _ _ _ _ hp
      obtain ⟨e, he, _⟩ := d5 hf
      exact ⟨d1, d3, e, he⟩
    | ready st =>
      simp only [processScript_ready settings script_name m env sched st hp]
        at hf ⊢
      obtain ⟨p1, p2, p3, p4, p5, p6, p7⟩ := preCommit_ready _ _ _ _ _ hp
      obtain ⟨c1, c2, c3, c4, c5, c6, c7, c8, c9, c10, c11, c12, c13⟩ :=
        commitStage_spec settings script_name m env sched st _ rfl
      obtain ⟨hsched, hlru, e, he, _⟩ := c10 hf
      exact ⟨hsched, hlru.trans p2, e, he⟩
  · intro settings script_name m env sched e hee
    cases hp : preCommit script_name m env sched with
    | done r =>
      simp only [processScript_done settings script_name m env sched r hp]
        at hee ⊢
      obtain ⟨d1, d2, d3, d4, d5, d6, d7⟩ := preCommit_done _ _ _ _ _ hp
      rcases d4 with hf | hs
      · obtain ⟨e0, hrsn, herr⟩ := d5 hf
        rw [herr] at hee
        injection hee with hee
        subst hee
        exact ⟨hf, hrsn⟩
      · rw [d6 hs] at hee
        exact Option.noConfusion hee
    | ready st =>
      simp only [processScript_ready settings script_name m env sched st hp]
        at hee ⊢
      obtain ⟨p1, p2, p3, p4, p5, p6, p7⟩ := preCommit_ready _ _ _ _ _ hp
      obtain ⟨c1, c2, c3, c4, c5, c6, c7, c8, c9, c10, c11, c12, c13⟩ :=
        commitStage_spec settings script_name m env sched st _ rfl
      cases hstat : (commitStage settings script_name m env sched
          st).entry.status with
      | skipped => exact absurd hstat c9
      | success =>
        obtain ⟨_, _, herr, _⟩ := c11 hstat
        rw [herr, p3] at hee
        exact Option.noConfusion hee
      | failure =>
        obtain ⟨_, _, e0, hrsn, herr⟩ := c10 hstat
        rw [herr] at hee
        injection hee with hee
        subst hee
        exact ⟨rfl, hrsn⟩
  · intro settings script_name m rest envs sched history
    rw [processAll_length]
    simp [List.length_cons]
    omega

/-- Witness for C4: a job whose executable is missing fails, and its
schedule is untouched. -/
theorem C4_witness :
    (processScript schedU.settings "job" jobU envNoScript schedU).entry.status
      = Status.failure ∧
    (processScript schedU.settings "job" jobU envNoScript schedU).sched
      = schedU ∧
    (processScript schedU.settings "job" jobU envNoScript
        schedU).trace.lastRunUpdated = false := by
  have h := C4_job_failure_isolated.1 schedU.settings "job" jobU envNoScript
    schedU rfl
  exact ⟨rfl, h.1, h.2.1⟩

theorem commitStage_settings_congr (s1 s2 : Settings) (script_name : String)
    (m : ScriptMeta) (env : Env) (sched : Schedule) (st : ReadyState)
    (h : s1.commit_solr.getD false = s2.commit_solr.getD false) :
    commitStage s1 script_name m env sched st
      = commitStage s2 script_name m env sched st := by
  unfold commitStage
  rw [h]

/-- C5: with `commit_solr` false (or absent, which is equivalent) no
commit-tool invocation happens for any job while execution, validation
and backup behave exactly as with `commit_solr` true; with it true and
both artifacts present, a successful job commits the insert file first
and the update file second, each against its own configured core. -/
theorem C5_commit_gating (script_name : String) (m : ScriptMeta) (env : Env)
    (sched : Schedule) :
    processScript { commit_solr := none } script_name m env sched
      = processScript { commit_solr := some false } script_name m env
          sched ∧
    (processScript { commit_solr := some false } script_name m env
        sched).trace.commits = [] ∧
    (processScript { commit_solr := some false } script_name m env
        sched).trace.execInvoked
      = (processScript { commit_solr := some true } script_name m env
          sched).trace.execInvoked ∧
    (processScript { commit_solr := some false } script_name m env
        sched).trace.insertValidated
      = (processScript { commit_solr := some true } script_name m env
          sched).trace.insertValidated ∧
    (processScript { commit_solr := some false } script_name m env
        sched).trace.updateValidated
      = (processScript { commit_solr := some true } script_name m env
          sched).trace.updateValidated ∧
    (processScript { commit_solr := some false } script_name m env
        sched).trace.backupInvoked
      = (processScript { commit_solr := some true } script_name m env
          sched).trace.backupInvoked ∧
    (processScript { commit_solr := some false } script_name m env
        sched).trace.backupSucceeded
      = (processScript { commit_solr := some true } script_name m env
          sched).trace.backupSucceeded ∧
    (∀ (ic uc : SolrConf) (rest1 rest2 : List SolrConf) (ci cu : String),
      m.solr_insert = ic :: rest1 → ic.core_name = some ci →
      m.solr_update = uc :: rest2 → uc.core_name = some cu →
      (processScript { commit_solr := some true } script_name m env
          sched).entry.status = .success →
      (processScript { commit_solr := some true } script_name m env
          sched).trace.insertValidated = true →
      (processScript { commit_solr := some true } script_name m env
          sched).trace.updateValidated = true →
      (processScript { commit_solr := some true } script_name m env
          sched).trace.commits = [(ci, "insert"), (cu, "update")]) := by
  cases hp : preCommit script_name m env sched with
  | done r =>
    simp only
      [processScript_done { commit_solr := none } script_name m env sched r hp,
       processScript_done { commit_solr := some false } script_name m env
         sched r hp,
       processScript_done { commit_solr := some true } script_name m env
         sched r hp]
    obtain ⟨d1, d2, d3, d4, d5, d6, d7⟩ := preCommit_done _ _ _ _ _ hp
    refine ⟨trivial, d2, trivial, trivial, trivial, trivial, trivial, ?_⟩
    intro ic uc rest1 rest2 ci cu _ _ _ _ hs _ _
    rcases d4 with hf | hsk
    · rw [hf] at hs
      exact absurd hs (by simp)
    · rw [hsk] at hs
      exact absurd hs (by simp)
  | ready st =>
    simp only
      [processScript_ready { commit_solr := none } script_name m env sched
         st hp,
       processScript_ready { commit_solr := some false } script_name m env
         sched st hp,
       processScript_ready { commit_solr := some true } script_name m env
         sched st hp]
    obtain ⟨p1, p2, p3, p4, p5, p6, p7⟩ := preCommit_ready _ _ _ _ _ hp
    obtain ⟨f1, f2, f3, f4, f5, f6, f7, f8, f9, f10, f11, f12, f13⟩ :=
      commitStage_spec { commit_solr := some false } script_name m env sched
        st _ rfl
    obtain ⟨t1, t2, t3, t4, t5, t6, t7, t8, t9, t10, t11, t12, t13⟩ :=
      commitStage_spec { commit_solr := some true } script_name m env sched
        st _ rfl
    refine ⟨commitStage_settings_congr _ _ script_name m env sched st rfl,
      ?_, f1.trans t1.symm, f2.trans t2.symm, f3.trans t3.symm,
      f4.trans t4.symm, f5.trans t5.symm, ?_⟩
    · rw [f12 rfl, p1]
    · intro ic uc rest1 rest2 ci cu hins hci hupd hcu hs hiv huv
      have hgi := p4 (t2.symm.trans hiv)
      have hgu := p5 (t3.symm.trans huv)
      exact commitStage_order { commit_solr := some true } script_name m env
        sched st _ ic uc rest1 rest2 ci cu rfl hins hci hupd hcu hgi hgu p1
        rfl hs

/-- Witness for C5: a job with one insert and one update target that
fully succeeds commits insert before update against its own cores, and
the same job with `commit_solr` false performs no commit at all. -/
theorem C5_witness :
    (processScript { commit_solr := some true } "job" jobIU envOk
        schedU).entry.status = Status.success ∧
    (processScript { commit_solr := some true } "job" jobIU envOk
        schedU).trace.commits = [("coreI", "insert"), ("coreU", "update")] ∧
    (processScript { commit_solr := some false } "job" jobIU envOk
        schedU).trace.commits = [] := by
  refine ⟨rfl, ?_, (C5_commit_gating "job" jobIU envOk schedU).2.1⟩
  exact (C5_commit_gating "job" jobIU envOk
    schedU).2.2.2.2.2.2.2
    { core_name := some "coreI", key := some "id", fields := none }
    { core_name := some "coreU", key := some "id", fields := some ["count"] }
    [] [] "coreI" "coreU" rfl rfl rfl rfl rfl rfl rfl

/-- C6: the claim says the force-run flag is one-shot, but in the code
the reset of `force_run` inside `update_run_date` is commented out: a
job with `force_run` set completes a successful run, the persisted
descriptor still carries `force_run = true`, and the very next
scheduling decision is again "Forced execution" even though only 5 of
its 30 interval days elapsed. -/
theorem C6_force_run_not_reset :
    (processScript schedForced.settings "job" jobForced envPlain
        schedForced).entry.status = Status.success ∧
    (processScript schedForced.settings "job" jobForced envPlain
        schedForced).sched.scripts
      = [("job", { jobForced with last_run := 5 })] ∧
    ({ jobForced with last_run := 5 }).force_run = some true ∧
    should_run { jobForced with last_run := 5 } 6
      = (true, RunReason.forced) := by
  exact ⟨rfl, rfl, rfl, rfl⟩

/-- C7: `execute_script` raises not-found before creating the output
directory when the executable is absent; a non-zero exit removes the
partially created insert/update files, keeps the log file, and raises
execution-failed; success returns the insert/update paths exactly when
they were requested. -/
theorem C7_execute_script (script_name : String) (e : ExecEnv)
    (has_insert has_update : Bool) :
    (e.scriptPresent = false →
      execute_script script_name e has_insert has_update
        = { result := .error .scriptNotFound
            outputDirCreated := false
            insertFileOnDisk := false
            updateFileOnDisk := false
            logFileOnDisk := false }) ∧
    (e.scriptPresent = true → e.exitOk = false →
      (execute_script script_name e has_insert has_update).result
          = .error .executionFailed ∧
      (execute_script script_name e has_insert has_update).insertFileOnDisk
          = false ∧
      (execute_script script_name e has_insert has_update).updateFileOnDisk
          = false ∧
      (execute_script script_name e has_insert has_update).logFileOnDisk
          = true ∧
      (execute_script script_name e has_insert has_update).outputDirCreated
          = true) ∧
    (e.scriptPresent = true → e.exitOk = true →
      (execute_script script_name e has_insert has_update).result
        = .ok ((if has_insert then some (.insertFile script_name) else none),
               (if has_update then some (.updateFile script_name)
                else none))) := by
  refine ⟨?_, ?_, ?_⟩
  · intro h1
    simp [execute_script, h1]
  · intro h1 h2
    simp [execute_script, h1, h2]
  · intro h1 h2
    simp [execute_script, h1, h2]

/-- Witness for C7: concrete runs with the executable absent, a failing
exit, and a clean exit. -/
theorem C7_witness :
    execute_script "job" { scriptPresent := false, exitOk := true
                           createdInsert := false, createdUpdate := false }
        true true
      = { result := .error .scriptNotFound
          outputDirCreated := false
          insertFileOnDisk := false
          updateFileOnDisk := false
          logFileOnDisk := false } ∧
    (execute_script "job" { scriptPresent := true, exitOk := false
                            createdInsert := true, createdUpdate := false }
        true true).insertFileOnDisk = false ∧
    (execute_script "job" { scriptPresent := true, exitOk := false
                            createdInsert := true, createdUpdate := false }
        true true).logFileOnDisk = true ∧
    (execute_script "job" { scriptPresent := true, exitOk := true
                            createdInsert := true, createdUpdate := true }
        true true).result
      = .ok (some (.insertFile "job"), some (.updateFile "job")) := by
  refine ⟨(C7_execute_script "job" _ true true).1 rfl, ?_, ?_, ?_⟩
  · exact ((C7_execute_script "job" _ true true).2.1 rfl rfl).2.1
  · exact ((C7_execute_script "job" _ true true).2.1 rfl rfl).2.2.2.1
  · exact (C7_execute_script "job" _ true true).2.2 rfl rfl

end Ingestion
